import Mathlib

/-!
# plio: `util/constants.c`

A shallow embedding of the constant-reporting utility.  The program is one
`printf` wrapper, `show`, and a `main` that applies it to twenty ioctl request
codes.  Text written to standard output is a `List Char`; the request codes come
from kernel headers that are not part of the repository, so `main` takes them as
a `Platform` record.
-/

namespace Plio

/-! ## Formatted output -/

/-- The bytes written to standard output so far. -/
abbrev Stream := List Char

/-- The digit table used by the `X` conversion. -/
def xdigits : List Char := "0123456789ABCDEF".toList

/-- One uppercase hexadecimal digit. -/
def hexDigitUpper (d : Nat) : Char := xdigits.getD d '0'

/-- The digits of `v` in base 16, least significant first, produced by the usual
divide-by-base loop (`do { emit v % 16; v /= 16; } while (v);`).  The loop body
runs at least once, so zero yields one digit. -/
def utoaRev : Nat → Nat → List Char
  | 0, _ => []
  | fuel + 1, v =>
    hexDigitUpper (v % 16) :: (if v / 16 = 0 then [] else utoaRev fuel (v / 16))

/-- Right-justify `s` in a field of `w` characters, filling with `c`. -/
def padLeft (c : Char) (w : Nat) (s : List Char) : List Char :=
  List.replicate (w - s.length) c ++ s

/-- Left-justify `s` in a field of `w` characters, filling with `c`. -/
def padRight (c : Char) (w : Nat) (s : List Char) : List Char :=
  s ++ List.replicate (w - s.length) c

/-- The conversion `%08X`: the argument is taken as an `unsigned int` (32 bits),
written in uppercase hexadecimal and zero-padded on the left to width 8.  The
loop is given one step per bit of the argument. -/
def fmt08X (v : Nat) : List Char :=
  padLeft '0' 8 (utoaRev 32 (v % 2 ^ 32)).reverse

/-- The conversion `%-40s`: the string, left-justified in a field of 40. -/
def fmtM40s (s : String) : List Char :=
  padRight ' ' 40 s.toList

/-- The text produced by `printf("%-40s= 0x%08X\n", name, value)`. -/
def printfLine (name : String) (value : Nat) : List Char :=
  fmtM40s name ++ "= 0x".toList ++ fmt08X value ++ "\n".toList

/-- The macro `show(s)`: `printf("%-40s= 0x%08X\n", #s, s)`.  The stringified
argument `#s` is `name`, the evaluated argument is `value`.  This is the call
whose write succeeds; `showOn` is the same statement in a world where it may
not. -/
def show_ (name : String) (value : Nat) (out : Stream) : Stream :=
  out ++ printfLine name value

/-! ## The request codes and `main` -/

/-- The request codes that `main` reports.  They are defined by the kernel headers
`linux/gpio.h` and `linux/spi/spidev.h`, which the program includes and which
differ between build targets; `SPI_IOC_MESSAGE` is a macro of the transfer
count. -/
structure Platform where
  GPIO_GET_CHIPINFO_IOCTL : Nat
  GPIO_GET_LINEINFO_IOCTL : Nat
  GPIO_GET_LINEHANDLE_IOCTL : Nat
  GPIO_GET_LINEEVENT_IOCTL : Nat
  GPIOHANDLE_GET_LINE_VALUES_IOCTL : Nat
  GPIOHANDLE_SET_LINE_VALUES_IOCTL : Nat
  SPI_IOC_MESSAGE : Nat → Nat
  SPI_IOC_RD_MODE : Nat
  SPI_IOC_WR_MODE : Nat
  SPI_IOC_RD_LSB_FIRST : Nat
  SPI_IOC_WR_LSB_FIRST : Nat
  SPI_IOC_RD_BITS_PER_WORD : Nat
  SPI_IOC_WR_BITS_PER_WORD : Nat
  SPI_IOC_RD_MAX_SPEED_HZ : Nat
  SPI_IOC_WR_MAX_SPEED_HZ : Nat
  SPI_IOC_RD_MODE32 : Nat
  SPI_IOC_WR_MODE32 : Nat

/-- The function `int main(void)`: twenty `show` statements in sequence.  Control
then reaches the closing brace, which for `main` is a return of 0 in C99 and
later.  The result is the standard output stream and the exit status of the run
in which every write succeeds; `mainOn` runs the same statements in a world
where writes may fail. -/
def main (p : Platform) (out : Stream) : Stream × Int :=
  let out := show_ "GPIO_GET_CHIPINFO_IOCTL" p.GPIO_GET_CHIPINFO_IOCTL out
  let out := show_ "GPIO_GET_LINEINFO_IOCTL" p.GPIO_GET_LINEINFO_IOCTL out
  let out := show_ "GPIO_GET_LINEHANDLE_IOCTL" p.GPIO_GET_LINEHANDLE_IOCTL out
  let out := show_ "GPIO_GET_LINEEVENT_IOCTL" p.GPIO_GET_LINEEVENT_IOCTL out
  let out := show_ "GPIOHANDLE_GET_LINE_VALUES_IOCTL" p.GPIOHANDLE_GET_LINE_VALUES_IOCTL out
  let out := show_ "GPIOHANDLE_SET_LINE_VALUES_IOCTL" p.GPIOHANDLE_SET_LINE_VALUES_IOCTL out
  let out := show_ "SPI_IOC_MESSAGE(0)" (p.SPI_IOC_MESSAGE 0) out
  let out := show_ "SPI_IOC_MESSAGE(1)" (p.SPI_IOC_MESSAGE 1) out
  let out := show_ "SPI_IOC_MESSAGE(2)" (p.SPI_IOC_MESSAGE 2) out
  let out := show_ "SPI_IOC_MESSAGE(16)" (p.SPI_IOC_MESSAGE 16) out
  let out := show_ "SPI_IOC_RD_MODE" p.SPI_IOC_RD_MODE out
  let out := show_ "SPI_IOC_WR_MODE" p.SPI_IOC_WR_MODE out
  let out := show_ "SPI_IOC_RD_LSB_FIRST" p.SPI_IOC_RD_LSB_FIRST out
  let out := show_ "SPI_IOC_WR_LSB_FIRST" p.SPI_IOC_WR_LSB_FIRST out
  let out := show_ "SPI_IOC_RD_BITS_PER_WORD" p.SPI_IOC_RD_BITS_PER_WORD out
  let out := show_ "SPI_IOC_WR_BITS_PER_WORD" p.SPI_IOC_WR_BITS_PER_WORD out
  let out := show_ "SPI_IOC_RD_MAX_SPEED_HZ" p.SPI_IOC_RD_MAX_SPEED_HZ out
  let out := show_ "SPI_IOC_WR_MAX_SPEED_HZ" p.SPI_IOC_WR_MAX_SPEED_HZ out
  let out := show_ "SPI_IOC_RD_MODE32" p.SPI_IOC_RD_MODE32 out
  let out := show_ "SPI_IOC_WR_MODE32" p.SPI_IOC_WR_MODE32 out
  (out, 0)

/-- The text the program writes to standard output. -/
def output (p : Platform) : List Char := (main p []).1

/-! ## Reading the output back -/

/-- The lines of a text.  A line ends at a newline, which is not part of it;
text after the last newline, if any, is a line of its own. -/
def splitLines : List Char → List (List Char)
  | [] => []
  | c :: cs =>
    if c = '\n' then [] :: splitLines cs
    else
      match splitLines cs with
      | [] => [[c]]
      | l :: ls => (c :: l) :: ls

/-- The name field of a line: everything before the first `=`. -/
def nameField (line : List Char) : List Char := line.takeWhile (fun c => c != '=')

/-- The display name on a line: everything before the first blank. -/
def displayName (line : List Char) : List Char := line.takeWhile (fun c => c != ' ')

/-- The hexadecimal field of a line: everything after the last `x`, up to the
newline if the line still carries one. -/
def hexField (line : List Char) : List Char :=
  (line.reverse.takeWhile (fun c => c != 'x')).reverse.takeWhile (fun c => c != '\n')

/-- Join lines into a text, ending each with a newline. -/
def unlines : List (List Char) → List Char
  | [] => []
  | l :: ls => l ++ '\n' :: unlines ls

/-- The value of one hexadecimal digit character, if it is one of `0-9A-F`. -/
def hexVal? (c : Char) : Option Nat :=
  if '0' ≤ c ∧ c ≤ '9' then some (c.toNat - '0'.toNat)
  else if 'A' ≤ c ∧ c ≤ 'F' then some (c.toNat - 'A'.toNat + 10)
  else none

/-- Read a base-16 numeral, most significant digit first. -/
def readHex (s : List Char) : Option Nat :=
  s.foldl (fun acc c => acc.bind fun a => (hexVal? c).map fun d => a * 16 + d) (some 0)

/-! ## The report as the specification words it -/

/-- The twenty entries, display name and value, in declaration order. -/
def entries (p : Platform) : List (String × Nat) :=
  [ ("GPIO_GET_CHIPINFO_IOCTL", p.GPIO_GET_CHIPINFO_IOCTL),
    ("GPIO_GET_LINEINFO_IOCTL", p.GPIO_GET_LINEINFO_IOCTL),
    ("GPIO_GET_LINEHANDLE_IOCTL", p.GPIO_GET_LINEHANDLE_IOCTL),
    ("GPIO_GET_LINEEVENT_IOCTL", p.GPIO_GET_LINEEVENT_IOCTL),
    ("GPIOHANDLE_GET_LINE_VALUES_IOCTL", p.GPIOHANDLE_GET_LINE_VALUES_IOCTL),
    ("GPIOHANDLE_SET_LINE_VALUES_IOCTL", p.GPIOHANDLE_SET_LINE_VALUES_IOCTL),
    ("SPI_IOC_MESSAGE(0)", p.SPI_IOC_MESSAGE 0),
    ("SPI_IOC_MESSAGE(1)", p.SPI_IOC_MESSAGE 1),
    ("SPI_IOC_MESSAGE(2)", p.SPI_IOC_MESSAGE 2),
    ("SPI_IOC_MESSAGE(16)", p.SPI_IOC_MESSAGE 16),
    ("SPI_IOC_RD_MODE", p.SPI_IOC_RD_MODE),
    ("SPI_IOC_WR_MODE", p.SPI_IOC_WR_MODE),
    ("SPI_IOC_RD_LSB_FIRST", p.SPI_IOC_RD_LSB_FIRST),
    ("SPI_IOC_WR_LSB_FIRST", p.SPI_IOC_WR_LSB_FIRST),
    ("SPI_IOC_RD_BITS_PER_WORD", p.SPI_IOC_RD_BITS_PER_WORD),
    ("SPI_IOC_WR_BITS_PER_WORD", p.SPI_IOC_WR_BITS_PER_WORD),
    ("SPI_IOC_RD_MAX_SPEED_HZ", p.SPI_IOC_RD_MAX_SPEED_HZ),
    ("SPI_IOC_WR_MAX_SPEED_HZ", p.SPI_IOC_WR_MAX_SPEED_HZ),
    ("SPI_IOC_RD_MODE32", p.SPI_IOC_RD_MODE32),
    ("SPI_IOC_WR_MODE32", p.SPI_IOC_WR_MODE32) ]

/-- The twenty display names, in declaration order. -/
def displayNames : List String :=
  [ "GPIO_GET_CHIPINFO_IOCTL", "GPIO_GET_LINEINFO_IOCTL", "GPIO_GET_LINEHANDLE_IOCTL",
    "GPIO_GET_LINEEVENT_IOCTL", "GPIOHANDLE_GET_LINE_VALUES_IOCTL",
    "GPIOHANDLE_SET_LINE_VALUES_IOCTL", "SPI_IOC_MESSAGE(0)", "SPI_IOC_MESSAGE(1)",
    "SPI_IOC_MESSAGE(2)", "SPI_IOC_MESSAGE(16)", "SPI_IOC_RD_MODE", "SPI_IOC_WR_MODE",
    "SPI_IOC_RD_LSB_FIRST", "SPI_IOC_WR_LSB_FIRST", "SPI_IOC_RD_BITS_PER_WORD",
    "SPI_IOC_WR_BITS_PER_WORD", "SPI_IOC_RD_MAX_SPEED_HZ", "SPI_IOC_WR_MAX_SPEED_HZ",
    "SPI_IOC_RD_MODE32", "SPI_IOC_WR_MODE32" ]

/-- The value as eight hexadecimal digits, one per nibble, most significant
first. -/
def hex8 (v : Nat) : List Char :=
  [7, 6, 5, 4, 3, 2, 1, 0].map fun i => hexDigitUpper (v / 16 ^ i % 16)

/-- The text of a report: one formatted line per entry, in order. -/
def report : List (String × Nat) → List Char
  | [] => []
  | e :: es => printfLine e.1 e.2 ++ report es

/-- A line without its newline. -/
def lineBody (name : String) (value : Nat) : List Char :=
  fmtM40s name ++ "= 0x".toList ++ fmt08X value

/-- The low `k` nibbles of `v` as digits, least significant first. -/
def nibbles : Nat → Nat → List Char
  | 0, _ => []
  | k + 1, v => hexDigitUpper (v % 16) :: nibbles k (v / 16)

/-- A display name that fits the name field with room to spare and contains no
blank, no `=` and no newline. -/
def nameOk (n : String) : Bool :=
  decide (n.length < 40) && n.toList.all fun c => c != ' ' && c != '=' && c != '\n'

/-- The five read/write pairs of SPI request codes, in the order reported. -/
def spiPairs (p : Platform) : List (Nat × Nat) :=
  [ (p.SPI_IOC_RD_MODE, p.SPI_IOC_WR_MODE),
    (p.SPI_IOC_RD_LSB_FIRST, p.SPI_IOC_WR_LSB_FIRST),
    (p.SPI_IOC_RD_BITS_PER_WORD, p.SPI_IOC_WR_BITS_PER_WORD),
    (p.SPI_IOC_RD_MAX_SPEED_HZ, p.SPI_IOC_WR_MAX_SPEED_HZ),
    (p.SPI_IOC_RD_MODE32, p.SPI_IOC_WR_MODE32) ]

/-! ## The reference platform -/

namespace Linux

/-- Modelled from the spec: the macro `_IOC` of the kernel's generic ioctl
encoding (the header is not part of the repository).  A request code packs the
direction into bits 30-31, the payload size into bits 16-29, the type byte into
bits 8-15 and the number into bits 0-7. -/
def _IOC (dir type nr size : Nat) : Nat :=
  (dir <<< 30) ||| (type <<< 8) ||| (nr <<< 0) ||| (size <<< 16)

/-- Modelled from the spec: the direction `write` of the generic encoding (the
header is not part of the repository). -/
def _IOC_WRITE : Nat := 1

/-- Modelled from the spec: the direction `read` of the generic encoding (the
header is not part of the repository). -/
def _IOC_READ : Nat := 2

/-- Modelled from the spec: the macro `_IOR`, a request that reads `size` bytes
(the header is not part of the repository). -/
def _IOR (type nr size : Nat) : Nat := _IOC _IOC_READ type nr size

/-- Modelled from the spec: the macro `_IOW`, a request that writes `size` bytes
(the header is not part of the repository). -/
def _IOW (type nr size : Nat) : Nat := _IOC _IOC_WRITE type nr size

/-- Modelled from the spec: the macro `_IOWR`, a request that writes and reads
`size` bytes (the header is not part of the repository). -/
def _IOWR (type nr size : Nat) : Nat := _IOC (_IOC_READ ||| _IOC_WRITE) type nr size

/-- Modelled from the spec: the direction field of a request code, bits 30-31
(the header is not part of the repository). -/
def _IOC_DIR (code : Nat) : Nat := (code >>> 30) &&& (2 ^ 2 - 1)

/-- Modelled from the spec: the size field of a request code, bits 16-29 (the
header is not part of the repository). -/
def _IOC_SIZE (code : Nat) : Nat := (code >>> 16) &&& (2 ^ 14 - 1)

/-- Modelled from the spec: the type field of a request code, bits 8-15 (the
header is not part of the repository). -/
def _IOC_TYPE (code : Nat) : Nat := (code >>> 8) &&& (2 ^ 8 - 1)

/-- Modelled from the spec: the number field of a request code, bits 0-7 (the
header is not part of the repository). -/
def _IOC_NR (code : Nat) : Nat := (code >>> 0) &&& (2 ^ 8 - 1)

/-- Modelled from the spec: the type byte of the SPI requests, the character
`k` (the header is not part of the repository). -/
def SPI_IOC_MAGIC : Nat := 'k'.toNat

/-- Modelled from the spec: the size in bytes of one SPI transfer record (the
header is not part of the repository). -/
def sizeof_spi_ioc_transfer : Nat := 32

/-- Modelled from the spec: the payload size of a message of `n` transfer
records, or 0 when it does not fit the size field (the header is not part of the
repository). -/
def SPI_MSGSIZE (n : Nat) : Nat :=
  if n * sizeof_spi_ioc_transfer < 1 <<< 14 then n * sizeof_spi_ioc_transfer else 0

/-- Modelled from the spec: the request code of a message of `n` transfer
records, a write of number 0 (the header is not part of the repository). -/
def SPI_IOC_MESSAGE (n : Nat) : Nat := _IOW SPI_IOC_MAGIC 0 (SPI_MSGSIZE n)

/-- Modelled from the spec: the request codes of the reference platform, a Linux
target with the generic ioctl encoding (the kernel headers are not part of the
repository).  The GPIO requests have type byte `0xB4` and carry the kernel's
GPIO records (68, 72, 364, 48 and 64 bytes); the SPI mode, bit order and word
size are one byte, the speed and the 32-bit mode four. -/
def platform : Platform where
  GPIO_GET_CHIPINFO_IOCTL := _IOR 0xB4 0x01 68
  GPIO_GET_LINEINFO_IOCTL := _IOWR 0xB4 0x02 72
  GPIO_GET_LINEHANDLE_IOCTL := _IOWR 0xB4 0x03 364
  GPIO_GET_LINEEVENT_IOCTL := _IOWR 0xB4 0x04 48
  GPIOHANDLE_GET_LINE_VALUES_IOCTL := _IOWR 0xB4 0x08 64
  GPIOHANDLE_SET_LINE_VALUES_IOCTL := _IOWR 0xB4 0x09 64
  SPI_IOC_MESSAGE := SPI_IOC_MESSAGE
  SPI_IOC_RD_MODE := _IOR SPI_IOC_MAGIC 1 1
  SPI_IOC_WR_MODE := _IOW SPI_IOC_MAGIC 1 1
  SPI_IOC_RD_LSB_FIRST := _IOR SPI_IOC_MAGIC 2 1
  SPI_IOC_WR_LSB_FIRST := _IOW SPI_IOC_MAGIC 2 1
  SPI_IOC_RD_BITS_PER_WORD := _IOR SPI_IOC_MAGIC 3 1
  SPI_IOC_WR_BITS_PER_WORD := _IOW SPI_IOC_MAGIC 3 1
  SPI_IOC_RD_MAX_SPEED_HZ := _IOR SPI_IOC_MAGIC 4 4
  SPI_IOC_WR_MAX_SPEED_HZ := _IOW SPI_IOC_MAGIC 4 4
  SPI_IOC_RD_MODE32 := _IOR SPI_IOC_MAGIC 5 4
  SPI_IOC_WR_MODE32 := _IOW SPI_IOC_MAGIC 5 4

end Linux

/-! ## Running against an environment -/

/-- What becomes of one `write` call on the descriptor of standard output. -/
inductive WriteOutcome
  | done
  | failed
  | signalled (sig : Nat)
deriving DecidableEq

/-- Everything outside the source text that a run depends on: whether the
program was built as C99 or later, after which `printf` calls the stream hands
its buffer to the descriptor (after every call when standard output is
unbuffered or line buffered, since each text ends in a newline; after none when
it is fully buffered and the buffer holds the report), and the outcome of each
`write` call in turn: accepted, refused with an error, or answered by a signal
that terminates the process (`SIGPIPE`, 13, on a pipe nobody reads). -/
structure World where
  c99 : Bool
  flushAfter : Nat → Bool
  write : Nat → WriteOutcome

/-- The process as far as standard output is concerned: the bytes the descriptor
has accepted, the bytes still in the stream's buffer, the number of `write`
calls and of `printf` calls made, and the signal that terminated the process, if
one has. -/
structure Proc where
  delivered : List Char
  buffer : List Char
  writes : Nat
  calls : Nat
  killed : Option Nat
deriving DecidableEq

/-- The process at the call of `main`. -/
def Proc.start : Proc := ⟨[], [], 0, 0, none⟩

/-- Hand the buffer to the descriptor with one `write`.  Accepted bytes are
delivered; on an error the stream drops them and reports failure; a terminating
signal ends the process inside the call. -/
def fflush (w : World) (s : Proc) : Proc × Int :=
  if s.buffer = [] then (s, 0)
  else
    match w.write s.writes with
    | WriteOutcome.done =>
      ({ s with delivered := s.delivered ++ s.buffer, buffer := [], writes := s.writes + 1 }, 0)
    | WriteOutcome.failed => ({ s with buffer := [], writes := s.writes + 1 }, -1)
    | WriteOutcome.signalled sig => ({ s with writes := s.writes + 1, killed := some sig }, -1)

/-- The call `printf("%-40s= 0x%08X\n", name, value)` in a world: the text goes
to the buffer of standard output, which is flushed when the world says so; the
result is the number of characters, or a negative number when the write failed.
A process that a signal has terminated executes nothing. -/
def printf (w : World) (name : String) (value : Nat) (s : Proc) : Proc × Int :=
  match s.killed with
  | some _ => (s, -1)
  | none =>
    let s1 : Proc := { s with buffer := s.buffer ++ printfLine name value, calls := s.calls + 1 }
    if w.flushAfter s.calls then
      let r := fflush w s1
      (r.1, if r.2 = 0 then ((printfLine name value).length : Int) else -1)
    else (s1, ((printfLine name value).length : Int))

/-- The statement `show(s);` in a world: the value of the `printf` call is
discarded. -/
def showOn (w : World) (name : String) (value : Nat) (s : Proc) : Proc :=
  (printf w name value s).1

/-- The function `int main(void)` in a world: the twenty `show` statements, then
the closing brace.  Reaching it returns 0 from `main` in C99 and later; in C89
the status is undefined, here `none`. -/
def mainOn (w : World) (p : Platform) (s : Proc) : Proc × Option Int :=
  let s := showOn w "GPIO_GET_CHIPINFO_IOCTL" p.GPIO_GET_CHIPINFO_IOCTL s
  let s := showOn w "GPIO_GET_LINEINFO_IOCTL" p.GPIO_GET_LINEINFO_IOCTL s
  let s := showOn w "GPIO_GET_LINEHANDLE_IOCTL" p.GPIO_GET_LINEHANDLE_IOCTL s
  let s := showOn w "GPIO_GET_LINEEVENT_IOCTL" p.GPIO_GET_LINEEVENT_IOCTL s
  let s := showOn w "GPIOHANDLE_GET_LINE_VALUES_IOCTL" p.GPIOHANDLE_GET_LINE_VALUES_IOCTL s
  let s := showOn w "GPIOHANDLE_SET_LINE_VALUES_IOCTL" p.GPIOHANDLE_SET_LINE_VALUES_IOCTL s
  let s := showOn w "SPI_IOC_MESSAGE(0)" (p.SPI_IOC_MESSAGE 0) s
  let s := showOn w "SPI_IOC_MESSAGE(1)" (p.SPI_IOC_MESSAGE 1) s
  let s := showOn w "SPI_IOC_MESSAGE(2)" (p.SPI_IOC_MESSAGE 2) s
  let s := showOn w "SPI_IOC_MESSAGE(16)" (p.SPI_IOC_MESSAGE 16) s
  let s := showOn w "SPI_IOC_RD_MODE" p.SPI_IOC_RD_MODE s
  let s := showOn w "SPI_IOC_WR_MODE" p.SPI_IOC_WR_MODE s
  let s := showOn w "SPI_IOC_RD_LSB_FIRST" p.SPI_IOC_RD_LSB_FIRST s
  let s := showOn w "SPI_IOC_WR_LSB_FIRST" p.SPI_IOC_WR_LSB_FIRST s
  let s := showOn w "SPI_IOC_RD_BITS_PER_WORD" p.SPI_IOC_RD_BITS_PER_WORD s
  let s := showOn w "SPI_IOC_WR_BITS_PER_WORD" p.SPI_IOC_WR_BITS_PER_WORD s
  let s := showOn w "SPI_IOC_RD_MAX_SPEED_HZ" p.SPI_IOC_RD_MAX_SPEED_HZ s
  let s := showOn w "SPI_IOC_WR_MAX_SPEED_HZ" p.SPI_IOC_WR_MAX_SPEED_HZ s
  let s := showOn w "SPI_IOC_RD_MODE32" p.SPI_IOC_RD_MODE32 s
  let s := showOn w "SPI_IOC_WR_MODE32" p.SPI_IOC_WR_MODE32 s
  (s, if w.c99 then some 0 else none)

/-- How a process ended: by exit with a status, by exit with an undefined
status, or terminated by a signal. -/
inductive Ending
  | exited (status : Int)
  | exitedUndefined
  | killed (sig : Nat)
deriving DecidableEq

/-- What a run leaves behind: the bytes standard output received, the number of
`printf` calls executed, and how the process ended. -/
structure Run where
  delivered : List Char
  calls : Nat
  ending : Ending

/-- The end of a process whose `main` has come back with `status` (or has been
terminated before): `exit` flushes standard output and ends the process with
that status; a terminating signal, in `main` or in the final flush, ends it
instead. -/
def exitWith (w : World) (status : Option Int) (s : Proc) : Run :=
  match s.killed with
  | some sig => ⟨s.delivered, s.calls, Ending.killed sig⟩
  | none =>
    let s2 := (fflush w s).1
    match s2.killed, status with
    | some sig, _ => ⟨s2.delivered, s2.calls, Ending.killed sig⟩
    | none, some v => ⟨s2.delivered, s2.calls, Ending.exited v⟩
    | none, none => ⟨s2.delivered, s2.calls, Ending.exitedUndefined⟩

/-- One run of the program in a world: the runtime calls `main` on a fresh
process and passes its result to `exit`. -/
def run (w : World) (p : Platform) : Run :=
  let r := mainOn w p Proc.start
  exitWith w r.2 r.1

/-- A world in which every write is accepted: line-buffered output to a
terminal, built as C99 or later. -/
def terminal : World := ⟨true, fun _ => true, fun _ => WriteOutcome.done⟩

/-- A world in which standard output is a pipe whose reader has gone: every
write raises `SIGPIPE`, signal 13. -/
def closedPipe : World := ⟨true, fun _ => true, fun _ => WriteOutcome.signalled 13⟩

/-- The world of `closedPipe` with a fully buffered stream: the only write is the
flush at exit. -/
def closedPipeBuffered : World := ⟨true, fun _ => false, fun _ => WriteOutcome.signalled 13⟩

/-- A world in which every write is accepted and the program was built as
C89. -/
def builtAsC89 : World := ⟨false, fun _ => true, fun _ => WriteOutcome.done⟩

/-- The statements of `main` in a world, as a list run in order. -/
def runEntries (w : World) (es : List (String × Nat)) (s : Proc) : Proc :=
  es.foldl (fun s e => showOn w e.1 e.2 s) s

/-! ## Auxiliary facts -/

theorem hexDigitUpper_zero : hexDigitUpper 0 = '0' := by decide

theorem hexDigitUpper_mem (d : Nat) (h : d < 16) : hexDigitUpper d ∈ xdigits := by
  revert d; decide

theorem hexVal_hexDigitUpper (d : Nat) (h : d < 16) : hexVal? (hexDigitUpper d) = some d := by
  revert d; decide

theorem nibbles_zero (k : Nat) : nibbles k 0 = List.replicate k '0' := by
  induction k with
  | zero => rfl
  | succ k ih => simp [nibbles, ih, hexDigitUpper_zero, List.replicate_succ]

theorem nibbles_length (k v : Nat) : (nibbles k v).length = k := by
  induction k generalizing v with
  | zero => rfl
  | succ k ih => simp [nibbles, ih]

theorem nibbles_mem (k v : Nat) : ∀ c ∈ nibbles k v, c ∈ xdigits := by
  induction k generalizing v with
  | zero => simp [nibbles]
  | succ k ih =>
    intro c hc
    simp only [nibbles, List.mem_cons] at hc
    rcases hc with rfl | hc
    · exact hexDigitUpper_mem _ (Nat.mod_lt _ (by decide))
    · exact ih _ c hc

theorem utoaRev_pad (k : Nat) : ∀ fuel v, v < 16 ^ k → 0 < k → k ≤ fuel →
    utoaRev fuel v ++ List.replicate (k - (utoaRev fuel v).length) '0' = nibbles k v := by
  induction k with
  | zero => intro fuel v _ hk; omega
  | succ k ih =>
    intro fuel v hv _ hf
    obtain ⟨f, rfl⟩ : ∃ f, fuel = f + 1 := ⟨fuel - 1, by omega⟩
    by_cases hq : v / 16 = 0
    · simp [utoaRev, nibbles, hq, nibbles_zero]
    · have hq' : v / 16 < 16 ^ k := by
        rw [Nat.div_lt_iff_lt_mul (by decide)]
        simpa [Nat.pow_succ] using hv
      have hk : 0 < k := by
        rcases k with _ | k
        · simp at hq'; omega
        · omega
      have := ih f (v / 16) hq' hk (by omega)
      simp only [utoaRev, nibbles, hq, if_false, List.length_cons, List.cons_append]
      rw [show k + 1 - ((utoaRev f (v / 16)).length + 1) = k - (utoaRev f (v / 16)).length by omega]
      rw [this]

theorem hex8_eq_nibbles (v : Nat) : hex8 v = (nibbles 8 v).reverse := by
  simp [hex8, nibbles, Nat.div_div_eq_div_mul]

theorem fmt08X_eq_hex8 (v : Nat) : fmt08X v = hex8 (v % 2 ^ 32) := by
  have h := utoaRev_pad 8 32 (v % 2 ^ 32) (Nat.mod_lt _ (by decide)) (by decide) (by decide)
  rw [hex8_eq_nibbles, ← h, fmt08X, padLeft]
  simp

theorem readHex_snoc (l : List Char) (c : Char) :
    readHex (l ++ [c]) = (readHex l).bind fun a => (hexVal? c).map fun d => a * 16 + d := by
  simp [readHex, List.foldl_append]

theorem readHex_nibbles (k v : Nat) : readHex (nibbles k v).reverse = some (v % 16 ^ k) := by
  induction k generalizing v with
  | zero => simp [nibbles, readHex, Nat.mod_one]
  | succ k ih =>
    simp only [nibbles, List.reverse_cons]
    rw [readHex_snoc, ih, hexVal_hexDigitUpper _ (Nat.mod_lt _ (by decide))]
    simp only [Option.some_bind, Option.map_some']
    rw [Nat.pow_succ, Nat.mul_comm (16 ^ k) 16, Nat.mod_mul]
    congr 1
    omega

theorem readHex_hex8 (v : Nat) (h : v < 2 ^ 32) : readHex (hex8 v) = some v := by
  rw [hex8_eq_nibbles, readHex_nibbles]
  congr 1
  exact Nat.mod_eq_of_lt (by simpa using h)

theorem hex8_length (v : Nat) : (hex8 v).length = 8 := by
  simp [hex8]

theorem hex8_mem (v : Nat) : ∀ c ∈ hex8 v, c ∈ xdigits := by
  intro c hc
  rw [hex8_eq_nibbles, List.mem_reverse] at hc
  exact nibbles_mem 8 v c hc

theorem fmt08X_length (v : Nat) : (fmt08X v).length = 8 := by
  rw [fmt08X_eq_hex8, hex8_length]

theorem fmt08X_mem (v : Nat) : ∀ c ∈ fmt08X v, c ∈ xdigits := by
  rw [fmt08X_eq_hex8]; exact hex8_mem _

theorem xdigits_ne (c : Char) (h : c ∈ xdigits) : c ≠ '\n' ∧ c ≠ 'x' ∧ c ≠ ' ' ∧ c ≠ '=' := by
  revert c; decide

theorem splitLines_line (l rest : List Char) (h : '\n' ∉ l) :
    splitLines (l ++ '\n' :: rest) = l :: splitLines rest := by
  induction l with
  | nil => simp [splitLines]
  | cons c cs ih =>
    have hc : c ≠ '\n' := fun e => h (by simp [e])
    have hcs : '\n' ∉ cs := fun e => h (by simp [e])
    simp [splitLines, hc, ih hcs]

theorem printfLine_eq (name : String) (v : Nat) :
    printfLine name v = lineBody name v ++ ['\n'] := rfl

theorem lineBody_no_newline (name : String) (v : Nat) (h : '\n' ∉ name.toList) :
    '\n' ∉ lineBody name v := by
  intro hm
  simp only [lineBody, fmtM40s, padRight, List.mem_append, List.mem_replicate] at hm
  rcases hm with ((hm | hm) | hm) | hm
  · exact h hm
  · exact absurd hm.2 (by decide)
  · revert hm; decide
  · exact (xdigits_ne _ (fmt08X_mem v _ hm)).1 rfl

theorem splitLines_report (es : List (String × Nat)) (h : ∀ e ∈ es, '\n' ∉ e.1.toList) :
    splitLines (report es) = es.map fun e => lineBody e.1 e.2 := by
  induction es with
  | nil => rfl
  | cons e es ih =>
    have h1 := lineBody_no_newline e.1 e.2 (h e (by simp))
    have h2 := ih (fun e' he' => h e' (by simp [he']))
    simp only [report, printfLine_eq, List.append_assoc, List.singleton_append, List.map_cons]
    rw [splitLines_line _ _ h1, h2]

theorem main_eq (p : Platform) (out : Stream) : main p out = (out ++ report (entries p), 0) := by
  simp [main, show_, report, entries, List.append_assoc]

theorem output_eq (p : Platform) : output p = report (entries p) := by
  simp [output, main_eq]

theorem takeWhile_append_stop {α : Type} (q : α → Bool) (l : List α) (c : α) (rest : List α)
    (hl : ∀ a ∈ l, q a = true) (hc : q c = false) : (l ++ c :: rest).takeWhile q = l := by
  induction l with
  | nil => simp [List.takeWhile, hc]
  | cons a l ih =>
    have ha : q a = true := hl a (by simp)
    simp [List.takeWhile, ha, ih (fun b hb => hl b (by simp [hb]))]

theorem takeWhile_all {α : Type} (q : α → Bool) (l : List α)
    (hl : ∀ a ∈ l, q a = true) : l.takeWhile q = l := by
  induction l with
  | nil => rfl
  | cons a l ih =>
    have ha : q a = true := hl a (by simp)
    simp [List.takeWhile, ha, ih (fun b hb => hl b (by simp [hb]))]

theorem nameOk_iff (n : String) : nameOk n = true ↔
    n.length < 40 ∧ ∀ c ∈ n.toList, c ≠ ' ' ∧ c ≠ '=' ∧ c ≠ '\n' := by
  simp [nameOk, and_assoc]

theorem displayNames_ok : ∀ n ∈ displayNames, nameOk n = true := by decide

theorem entries_names (p : Platform) : (entries p).map Prod.fst = displayNames := rfl

theorem entries_ok (p : Platform) : ∀ e ∈ entries p, nameOk e.1 = true := fun e he =>
  displayNames_ok e.1 (by rw [← entries_names p]; exact List.mem_map_of_mem _ he)

theorem lineBody_length (n : String) (v : Nat) (h : n.length ≤ 40) :
    (lineBody n v).length = 52 := by
  have : n.toList.length = n.length := rfl
  simp [lineBody, fmtM40s, padRight, fmt08X_length]
  omega

theorem printfLine_length (n : String) (v : Nat) (h : n.length ≤ 40) :
    (printfLine n v).length = 53 := by
  rw [printfLine_eq, List.length_append, lineBody_length n v h]; rfl

theorem hexField_lineBody (n : String) (v : Nat) : hexField (lineBody n v) = fmt08X v := by
  have hx : ∀ a ∈ (fmt08X v).reverse, (fun c => c != 'x') a = true := by
    intro a ha
    have := (xdigits_ne a (fmt08X_mem v a (List.mem_reverse.mp ha))).2.1
    simpa using this
  have hn : ∀ a ∈ fmt08X v, (fun c => c != '\n') a = true := by
    intro a ha
    have := (xdigits_ne a (fmt08X_mem v a ha)).1
    simpa using this
  have hr : (lineBody n v).reverse
      = (fmt08X v).reverse ++ 'x' :: ('0' :: ' ' :: '=' :: (fmtM40s n).reverse) := by
    simp [lineBody]
  rw [hexField, hr, takeWhile_append_stop _ _ _ _ hx (by decide), List.reverse_reverse,
    takeWhile_all _ _ hn]

theorem hexField_printfLine (n : String) (v : Nat) : hexField (printfLine n v) = fmt08X v := by
  have hx : ∀ a ∈ '\n' :: (fmt08X v).reverse, (fun c => c != 'x') a = true := by
    intro a ha
    rcases List.mem_cons.mp ha with rfl | ha
    · decide
    · have := (xdigits_ne a (fmt08X_mem v a (List.mem_reverse.mp ha))).2.1
      simpa using this
  have hn : ∀ a ∈ fmt08X v, (fun c => c != '\n') a = true := by
    intro a ha
    have := (xdigits_ne a (fmt08X_mem v a ha)).1
    simpa using this
  have hr : (printfLine n v).reverse
      = ('\n' :: (fmt08X v).reverse) ++ 'x' :: ('0' :: ' ' :: '=' :: (fmtM40s n).reverse) := by
    simp [printfLine]
  rw [hexField, hr, takeWhile_append_stop _ _ _ _ hx (by decide)]
  simp only [List.reverse_cons, List.reverse_reverse]
  exact takeWhile_append_stop _ _ _ [] hn (by decide)

theorem nameField_lineBody (n : String) (v : Nat) (h : nameOk n = true) :
    nameField (lineBody n v) = n.toList ++ List.replicate (40 - n.length) ' ' := by
  have hn := ((nameOk_iff n).mp h).2
  have hq : ∀ a ∈ n.toList ++ List.replicate (40 - n.length) ' ', (fun c => c != '=') a = true := by
    intro a ha
    rcases List.mem_append.mp ha with ha | ha
    · simpa using (hn a ha).2.1
    · rw [List.mem_replicate] at ha; rw [ha.2]; decide
  have hr : lineBody n v
      = (n.toList ++ List.replicate (40 - n.length) ' ') ++ '=' :: (' ' :: '0' :: 'x' :: fmt08X v) := by
    simp [lineBody, fmtM40s, padRight]
  rw [nameField, hr, takeWhile_append_stop _ _ _ _ hq (by decide)]

theorem displayName_lineBody (n : String) (v : Nat) (h : nameOk n = true) :
    displayName (lineBody n v) = n.toList := by
  obtain ⟨hlen, hn⟩ := (nameOk_iff n).mp h
  have hq : ∀ a ∈ n.toList, (fun c => c != ' ') a = true := by
    intro a ha
    simpa using (hn a ha).1
  obtain ⟨k, hk⟩ : ∃ k, 40 - n.length = k + 1 := ⟨40 - n.length - 1, by omega⟩
  have hr : lineBody n v
      = n.toList ++ ' ' :: (List.replicate k ' ' ++ '=' :: ' ' :: '0' :: 'x' :: fmt08X v) := by
    simp [lineBody, fmtM40s, padRight, hk, List.replicate_succ]
  rw [displayName, hr, takeWhile_append_stop _ _ _ _ hq (by decide)]

theorem unlines_map_lineBody (es : List (String × Nat)) :
    unlines (es.map fun e => lineBody e.1 e.2) = report es := by
  induction es with
  | nil => rfl
  | cons e es ih => simp [unlines, report, printfLine_eq, ih]

theorem report_length (es : List (String × Nat)) (h : ∀ e ∈ es, e.1.length ≤ 40) :
    (report es).length = 53 * es.length := by
  induction es with
  | nil => rfl
  | cons e es ih =>
    simp only [report, List.length_append, List.length_cons]
    rw [printfLine_length _ _ (h e (by simp)), ih (fun e' he' => h e' (by simp [he']))]
    omega

theorem report_drop (es : List (String × Nat)) (h : ∀ e ∈ es, e.1.length ≤ 40) (i : Nat) :
    (report es).drop (53 * i) = report (es.drop i) := by
  induction es generalizing i with
  | nil => simp [report]
  | cons e es ih =>
    cases i with
    | zero => simp
    | succ i =>
      have hl := printfLine_length e.1 e.2 (h e (by simp))
      simp only [report, List.drop_succ_cons]
      rw [show 53 * (i + 1) = (printfLine e.1 e.2).length + 53 * i by omega, List.drop_append]
      exact ih (fun e' he' => h e' (by simp [he'])) i

theorem lines_eq (p : Platform) :
    splitLines (output p) = (entries p).map fun e => lineBody e.1 e.2 := by
  rw [output_eq]
  refine splitLines_report _ fun e he => ?_
  have := ((nameOk_iff e.1).mp (entries_ok p e he)).2
  intro hm
  exact (this _ hm).2.2 rfl

theorem entries_length (p : Platform) : (entries p).length = 20 := rfl

theorem entries_name_le (p : Platform) : ∀ e ∈ entries p, e.1.length ≤ 40 := fun e he =>
  Nat.le_of_lt ((nameOk_iff e.1).mp (entries_ok p e he)).1

theorem getElem?_append_cons {α : Type} (a : List α) (c : α) (rest : List α) (n : Nat)
    (h : a.length = n) : (a ++ c :: rest)[n]? = some c := by
  subst h
  induction a with
  | nil => simp
  | cons x a ih => simpa using ih

theorem readHex_fmt08X (v : Nat) : readHex (fmt08X v) = some (v % 2 ^ 32) := by
  rw [fmt08X_eq_hex8, readHex_hex8 _ (Nat.mod_lt _ (by decide))]

set_option maxRecDepth 100000 in
theorem spi_message_formula :
    ∀ n, n < 512 → Linux.SPI_IOC_MESSAGE n = 0x40006B00 + n * 2 ^ 21 := by
  decide

theorem mainOn_eq (w : World) (p : Platform) (s : Proc) :
    mainOn w p s = (runEntries w (entries p) s, if w.c99 then some 0 else none) := rfl

theorem fflush_calls (w : World) (s : Proc) : (fflush w s).1.calls = s.calls := by
  unfold fflush
  split
  · rfl
  · split <;> rfl

theorem fflush_origin (w : World) (s : Proc) (sig : Nat)
    (h : (fflush w s).1.killed = some sig) :
    s.killed = some sig ∨ ∃ k, w.write k = WriteOutcome.signalled sig := by
  unfold fflush at h
  split at h
  · exact Or.inl h
  · split at h
    · exact Or.inl h
    · exact Or.inl h
    · rename_i sig2 hw
      simp only [Option.some.injEq] at h
      subst h
      exact Or.inr ⟨_, hw⟩

theorem fflush_none (w : World) (s : Proc) (h : (fflush w s).1.killed = none) :
    s.killed = none := by
  unfold fflush at h
  split at h
  · exact h
  · split at h
    · exact h
    · exact h
    · simp at h

theorem fflush_ok (w : World) (s : Proc) (hw : ∀ k, w.write k = WriteOutcome.done) :
    (fflush w s).1.killed = s.killed ∧
    (fflush w s).1.delivered = s.delivered ++ s.buffer ∧
    (fflush w s).1.buffer = [] := by
  unfold fflush
  split
  · rename_i hb
    simp [hb]
  · rw [hw]
    simp

theorem showOn_none (w : World) (n : String) (v : Nat) (s : Proc)
    (h : (showOn w n v s).killed = none) :
    s.killed = none ∧ (showOn w n v s).calls = s.calls + 1 := by
  unfold showOn printf at h ⊢
  split at h
  · rename_i sig hk
    simp [hk] at h
  · rename_i hk
    refine ⟨hk, ?_⟩
    simp only [hk]
    split
    · simp only [fflush_calls]
    · rfl

theorem showOn_origin (w : World) (n : String) (v : Nat) (s : Proc) (sig : Nat)
    (h : (showOn w n v s).killed = some sig) :
    s.killed = some sig ∨ ∃ k, w.write k = WriteOutcome.signalled sig := by
  unfold showOn printf at h
  split at h
  · exact Or.inl h
  · rename_i hk
    split at h
    · rcases fflush_origin w _ sig h with h' | h'
      · exact Or.inl h'
      · exact Or.inr h'
    · exact Or.inl h

theorem showOn_ok (w : World) (n : String) (v : Nat) (s : Proc)
    (hw : ∀ k, w.write k = WriteOutcome.done) (hk : s.killed = none) :
    (showOn w n v s).killed = none ∧
    (showOn w n v s).delivered ++ (showOn w n v s).buffer
      = s.delivered ++ s.buffer ++ printfLine n v := by
  unfold showOn printf
  simp only [hk]
  split
  · obtain ⟨h1, h2, h3⟩ := fflush_ok w
      ⟨s.delivered, s.buffer ++ printfLine n v, s.writes, s.calls + 1, none⟩ hw
    rw [h1, h2, h3]
    simp only [List.append_nil, List.append_assoc, and_self]
  · simp only [hk, List.append_assoc, and_self]

theorem runEntries_none (w : World) (es : List (String × Nat)) (s : Proc)
    (h : (runEntries w es s).killed = none) :
    s.killed = none ∧ (runEntries w es s).calls = s.calls + es.length := by
  induction es generalizing s with
  | nil => exact ⟨h, rfl⟩
  | cons e es ih =>
    have h1 := ih (showOn w e.1 e.2 s) h
    have h2 := showOn_none w e.1 e.2 s h1.1
    refine ⟨h2.1, ?_⟩
    have : (runEntries w (e :: es) s) = runEntries w es (showOn w e.1 e.2 s) := rfl
    rw [this, h1.2, h2.2, List.length_cons]
    omega

theorem runEntries_origin (w : World) (es : List (String × Nat)) (s : Proc) (sig : Nat)
    (h : (runEntries w es s).killed = some sig) :
    s.killed = some sig ∨ ∃ k, w.write k = WriteOutcome.signalled sig := by
  induction es generalizing s with
  | nil => exact Or.inl h
  | cons e es ih =>
    rcases ih (showOn w e.1 e.2 s) h with h1 | h1
    · exact showOn_origin w e.1 e.2 s sig h1
    · exact Or.inr h1

theorem runEntries_ok (w : World) (es : List (String × Nat)) (s : Proc)
    (hw : ∀ k, w.write k = WriteOutcome.done) (hk : s.killed = none) :
    (runEntries w es s).killed = none ∧
    (runEntries w es s).delivered ++ (runEntries w es s).buffer
      = s.delivered ++ s.buffer ++ report es := by
  induction es generalizing s with
  | nil => simp [runEntries, report, hk]
  | cons e es ih =>
    obtain ⟨h1, h2⟩ := showOn_ok w e.1 e.2 s hw hk
    obtain ⟨h3, h4⟩ := ih (showOn w e.1 e.2 s) h1
    have : (runEntries w (e :: es) s) = runEntries w es (showOn w e.1 e.2 s) := rfl
    rw [this]
    refine ⟨h3, ?_⟩
    rw [h4, h2, report]
    simp only [List.append_assoc]

theorem run_eq (w : World) (p : Platform) :
    run w p = exitWith w (if w.c99 then some 0 else none)
      (runEntries w (entries p) Proc.start) := rfl

theorem run_of_killed (w : World) (p : Platform) (sig : Nat)
    (h : (runEntries w (entries p) Proc.start).killed = some sig) :
    run w p = ⟨(runEntries w (entries p) Proc.start).delivered,
      (runEntries w (entries p) Proc.start).calls, Ending.killed sig⟩ := by
  rw [run_eq]
  generalize runEntries w (entries p) Proc.start = s at h ⊢
  simp only [exitWith, h]

theorem run_of_flush_killed (w : World) (p : Platform) (sig : Nat)
    (h0 : (runEntries w (entries p) Proc.start).killed = none)
    (h : (fflush w (runEntries w (entries p) Proc.start)).1.killed = some sig) :
    run w p = ⟨(fflush w (runEntries w (entries p) Proc.start)).1.delivered,
      (fflush w (runEntries w (entries p) Proc.start)).1.calls, Ending.killed sig⟩ := by
  rw [run_eq]
  generalize runEntries w (entries p) Proc.start = s at h0 h ⊢
  simp only [exitWith, h0, h]

theorem run_of_exit (w : World) (p : Platform) (hc : w.c99 = true)
    (h0 : (runEntries w (entries p) Proc.start).killed = none)
    (h : (fflush w (runEntries w (entries p) Proc.start)).1.killed = none) :
    run w p = ⟨(fflush w (runEntries w (entries p) Proc.start)).1.delivered,
      (fflush w (runEntries w (entries p) Proc.start)).1.calls, Ending.exited 0⟩ := by
  rw [run_eq]
  generalize runEntries w (entries p) Proc.start = s at h0 h ⊢
  simp only [exitWith, h0, h, hc, if_true]

/-! ## The claims -/

/-- C1: the output of `main` is exactly twenty lines, each ended by a newline,
and the display names on them are, in order, the twenty names as written in the
source. -/
theorem main_emits_twenty_names (p : Platform) :
    (splitLines (output p)).length = 20 ∧
    (splitLines (output p)).map displayName =
      [ "GPIO_GET_CHIPINFO_IOCTL", "GPIO_GET_LINEINFO_IOCTL", "GPIO_GET_LINEHANDLE_IOCTL",
        "GPIO_GET_LINEEVENT_IOCTL", "GPIOHANDLE_GET_LINE_VALUES_IOCTL",
        "GPIOHANDLE_SET_LINE_VALUES_IOCTL", "SPI_IOC_MESSAGE(0)", "SPI_IOC_MESSAGE(1)",
        "SPI_IOC_MESSAGE(2)", "SPI_IOC_MESSAGE(16)", "SPI_IOC_RD_MODE", "SPI_IOC_WR_MODE",
        "SPI_IOC_RD_LSB_FIRST", "SPI_IOC_WR_LSB_FIRST", "SPI_IOC_RD_BITS_PER_WORD",
        "SPI_IOC_WR_BITS_PER_WORD", "SPI_IOC_RD_MAX_SPEED_HZ", "SPI_IOC_WR_MAX_SPEED_HZ",
        "SPI_IOC_RD_MODE32", "SPI_IOC_WR_MODE32" ].map String.toList ∧
    unlines (splitLines (output p)) = output p := by
  refine ⟨?_, ?_, ?_⟩
  · rw [lines_eq, List.length_map, entries_length]
  · rw [lines_eq, List.map_map]
    have h : ∀ e ∈ entries p, (displayName ∘ fun e => lineBody e.1 e.2) e = (String.toList ∘ Prod.fst) e :=
      fun e he => displayName_lineBody e.1 e.2 (entries_ok p e he)
    rw [List.map_congr_left h]
    rfl
  · rw [lines_eq, unlines_map_lineBody, output_eq]

/-- C2: for a 32-bit value, the text `show` writes is the name, blanks filling
the name to a field of 40 characters, the four characters `= 0x`, the value as
eight zero-padded uppercase hexadecimal digits, and one newline; nothing else. -/
theorem show_line_format (name : String) (value : Nat) (out : Stream) (h : value < 2 ^ 32) :
    show_ name value out =
      out ++ (name.toList ++ List.replicate (40 - name.length) ' ' ++ ['=', ' ', '0', 'x']
        ++ hex8 value ++ ['\n']) := by
  rw [show_, printfLine, fmt08X_eq_hex8, Nat.mod_eq_of_lt h]
  rfl

theorem show_line_format_witness :
    (0x80016B01 : Nat) < 2 ^ 32 ∧
    show_ "SPI_IOC_RD_MODE" 0x80016B01 [] =
      "SPI_IOC_RD_MODE                         = 0x80016B01\n".toList :=
  ⟨by decide, (show_line_format "SPI_IOC_RD_MODE" 0x80016B01 [] (by decide)).trans (by decide)⟩

/-- C4: on each of the twenty lines, the name field (the characters before the
first `=`) is at least 40 characters long and is the entry's display name
followed by blanks only. -/
theorem name_field_is_padded_name (p : Platform) :
    List.Forall₂
      (fun line name => 40 ≤ (nameField line).length ∧
        ∃ k, nameField line = String.toList name ++ List.replicate k ' ')
      (splitLines (output p)) displayNames := by
  rw [lines_eq, ← entries_names p, List.forall₂_map_left_iff, List.forall₂_map_right_iff,
    List.forall₂_same]
  intro e he
  have hok := entries_ok p e he
  have hlen := ((nameOk_iff e.1).mp hok).1
  have hl : e.1.toList.length = e.1.length := rfl
  rw [nameField_lineBody e.1 e.2 hok]
  refine ⟨?_, _, rfl⟩
  rw [List.length_append, List.length_replicate, hl]
  omega

/-- C3: for a 32-bit value, the part of the line `show` writes that lies after
`= 0x` and before the newline is exactly eight characters, each one of
`0123456789ABCDEF`, and read as a base-16 numeral it is the value; the same
holds on every line of the output of `main`, for the value as `printf` takes
it (an `unsigned int`). -/
theorem hex_field_is_value (p : Platform) (name : String) (value : Nat) (out : Stream)
    (h : value < 2 ^ 32) :
    (show_ name value out =
        out ++ (fmtM40s name ++ "= 0x".toList ++ hexField (printfLine name value) ++ ['\n']) ∧
      (hexField (printfLine name value)).length = 8 ∧
      (∀ c ∈ hexField (printfLine name value), c ∈ "0123456789ABCDEF".toList) ∧
      readHex (hexField (printfLine name value)) = some value) ∧
    List.Forall₂
      (fun line e =>
        line = fmtM40s e.1 ++ "= 0x".toList ++ hexField line ∧
        (hexField line).length = 8 ∧
        (∀ c ∈ hexField line, c ∈ "0123456789ABCDEF".toList) ∧
        readHex (hexField line) = some (e.2 % 2 ^ 32) ∧
        (e.2 < 2 ^ 32 → readHex (hexField line) = some e.2))
      (splitLines (output p)) (entries p) := by
  constructor
  · rw [hexField_printfLine]
    refine ⟨rfl, fmt08X_length _, fmt08X_mem _, ?_⟩
    rw [fmt08X_eq_hex8, Nat.mod_eq_of_lt h, readHex_hex8 _ h]
  · rw [lines_eq, List.forall₂_map_left_iff, List.forall₂_same]
    intro e _
    rw [hexField_lineBody]
    have hr : readHex (fmt08X e.2) = some (e.2 % 2 ^ 32) := by
      rw [fmt08X_eq_hex8, readHex_hex8 _ (Nat.mod_lt _ (by decide))]
    refine ⟨rfl, fmt08X_length _, fmt08X_mem _, hr, fun he => ?_⟩
    rw [hr, Nat.mod_eq_of_lt he]

theorem hex_field_is_value_witness :
    (0x80016B01 : Nat) < 2 ^ 32 ∧
    hexField (printfLine "SPI_IOC_RD_MODE" 0x80016B01) = "80016B01".toList ∧
    readHex (hexField (printfLine "SPI_IOC_RD_MODE" 0x80016B01)) = some 0x80016B01 :=
  ⟨by decide, by decide,
    (hex_field_is_value Linux.platform "SPI_IOC_RD_MODE" 0x80016B01 [] (by decide)).1.2.2.2⟩

/-- C5: when the platform's `SPI_IOC_RD_MODE` is `0x80016B01`, the eleventh line
of the output is the 15-character name, 25 blanks, `= 0x80016B01` and a
newline. -/
theorem rd_mode_line (p : Platform) (h : p.SPI_IOC_RD_MODE = 0x80016B01) :
    (splitLines (output p))[10]? =
      some ("SPI_IOC_RD_MODE".toList ++ List.replicate 25 ' ' ++ "= 0x80016B01".toList) ∧
    ((output p).drop (53 * 10)).take 53 =
      "SPI_IOC_RD_MODE".toList ++ List.replicate 25 ' ' ++ "= 0x80016B01".toList ++ ['\n'] ∧
    "SPI_IOC_RD_MODE".length = 15 := by
  have hb : lineBody "SPI_IOC_RD_MODE" 0x80016B01 =
      "SPI_IOC_RD_MODE".toList ++ List.replicate 25 ' ' ++ "= 0x80016B01".toList := by decide
  refine ⟨?_, ?_, rfl⟩
  · rw [lines_eq]
    simp only [entries, List.map_cons, List.getElem?_cons_succ, List.getElem?_cons_zero, h]
    rw [hb]
  · rw [output_eq, report_drop _ (entries_name_le p)]
    simp only [entries, List.drop_succ_cons, List.drop_zero, report, h]
    rw [List.take_append_of_le_length (by rw [printfLine_length _ _ (by decide)]),
      List.take_of_length_le (by rw [printfLine_length _ _ (by decide)]), printfLine_eq, hb]

theorem rd_mode_line_witness :
    Linux.platform.SPI_IOC_RD_MODE = 0x80016B01 ∧
    (splitLines (output Linux.platform))[10]? =
      some "SPI_IOC_RD_MODE                         = 0x80016B01".toList :=
  ⟨by decide, ((rd_mode_line Linux.platform (by decide)).1).trans (by decide)⟩

/-- C9: every display name is shorter than 40 characters, the longest being
`GPIOHANDLE_GET_LINE_VALUES_IOCTL` with 32; so on every line of the output the
first `=` is at offset 40, every line is 52 characters plus its newline, and the
output is 20 lines of 53 bytes, 1060 bytes in all. -/
theorem line_layout (p : Platform) :
    (splitLines (output p)).map displayName = displayNames.map String.toList ∧
    (∀ n ∈ displayNames, String.length n < 40 ∧ String.length n ≤ 32) ∧
    "GPIOHANDLE_GET_LINE_VALUES_IOCTL" ∈ displayNames ∧
    "GPIOHANDLE_GET_LINE_VALUES_IOCTL".length = 32 ∧
    (∀ l ∈ splitLines (output p),
      (nameField l).length = 40 ∧ l[40]? = some '=' ∧ l.length = 52) ∧
    (splitLines (output p)).length = 20 ∧
    unlines (splitLines (output p)) = output p ∧
    (output p).length = 20 * 53 ∧
    (output p).length = 1060 := by
  have hlen : (output p).length = 1060 := by
    rw [output_eq, report_length _ (entries_name_le p), entries_length]
  refine ⟨?_, by decide, by decide, by decide, ?_, ?_, ?_, hlen, hlen⟩
  · rw [lines_eq, List.map_map, ← entries_names p, List.map_map]
    exact List.map_congr_left fun e he => displayName_lineBody e.1 e.2 (entries_ok p e he)
  · intro l hmem
    rw [lines_eq, List.mem_map] at hmem
    obtain ⟨e, he, rfl⟩ := hmem
    have hok := entries_ok p e he
    have hlt := ((nameOk_iff e.1).mp hok).1
    have hl : e.1.toList.length = e.1.length := rfl
    have h40 : (e.1.toList ++ List.replicate (40 - e.1.length) ' ').length = 40 := by
      rw [List.length_append, List.length_replicate, hl]; omega
    refine ⟨?_, ?_, lineBody_length _ _ (Nat.le_of_lt hlt)⟩
    · rw [nameField_lineBody _ _ hok, h40]
    · have hr : lineBody e.1 e.2 = (e.1.toList ++ List.replicate (40 - e.1.length) ' ')
          ++ '=' :: (' ' :: '0' :: 'x' :: fmt08X e.2) := by
        simp [lineBody, fmtM40s, padRight]
      rw [hr]
      exact getElem?_append_cons _ _ _ 40 h40
  · rw [lines_eq, List.length_map, entries_length]
  · rw [lines_eq, unlines_map_lineBody, output_eq]

/-- C8 (amended): built as C99 or later, a run ends in one of two ways: the
process exits with status 0, having executed all twenty `show` statements, or a
write to standard output raises a terminating signal and the process ends
there.  Write errors do not change the status, since the result of `printf` is
discarded.  When every write succeeds the process exits with status 0 and
standard output has received exactly the twenty lines. -/
theorem main_exit_status (w : World) (p : Platform) (hc : w.c99 = true) :
    ((run w p).ending = Ending.exited 0 ∨
      ∃ k sig, w.write k = WriteOutcome.signalled sig ∧ (run w p).ending = Ending.killed sig) ∧
    ((run w p).ending = Ending.exited 0 → (run w p).calls = 20) ∧
    ((∀ k sig, w.write k ≠ WriteOutcome.signalled sig) →
      (run w p).ending = Ending.exited 0) ∧
    ((∀ k, w.write k = WriteOutcome.done) →
      (run w p).ending = Ending.exited 0 ∧ (run w p).delivered = output p ∧
      (splitLines (run w p).delivered).length = 20) := by
  have hstart : Proc.start.killed = none := rfl
  have hdich : ((run w p).ending = Ending.exited 0 ∧ (run w p).calls = 20) ∨
      ∃ k sig, w.write k = WriteOutcome.signalled sig ∧ (run w p).ending = Ending.killed sig := by
    cases h0 : (runEntries w (entries p) Proc.start).killed with
    | some sig =>
      right
      rcases runEntries_origin w _ _ sig h0 with h | ⟨k, hk⟩
      · rw [hstart] at h; exact absurd h (by simp)
      · exact ⟨k, sig, hk, by rw [run_of_killed w p sig h0]⟩
    | none =>
      cases h1 : (fflush w (runEntries w (entries p) Proc.start)).1.killed with
      | some sig =>
        right
        rcases fflush_origin w _ sig h1 with h | ⟨k, hk⟩
        · rw [h0] at h; exact absurd h (by simp)
        · exact ⟨k, sig, hk, by rw [run_of_flush_killed w p sig h0 h1]⟩
      | none =>
        left
        rw [run_of_exit w p hc h0 h1]
        refine ⟨rfl, ?_⟩
        have := (runEntries_none w _ _ h0).2
        simp only [fflush_calls, this, entries_length]
        rfl
  refine ⟨?_, ?_, ?_, ?_⟩
  · rcases hdich with h | h
    · exact Or.inl h.1
    · exact Or.inr h
  · intro he
    rcases hdich with h | ⟨k, sig, _, h⟩
    · exact h.2
    · rw [he] at h; exact absurd h (by simp)
  · intro hn
    rcases hdich with h | ⟨k, sig, hk, _⟩
    · exact h.1
    · exact absurd hk (hn k sig)
  · intro hw
    obtain ⟨h0, ht⟩ := runEntries_ok w (entries p) Proc.start hw hstart
    obtain ⟨f1, f2, _⟩ := fflush_ok w (runEntries w (entries p) Proc.start) hw
    have h1 : (fflush w (runEntries w (entries p) Proc.start)).1.killed = none := by rw [f1, h0]
    have hd : (run w p).delivered = output p := by
      rw [run_of_exit w p hc h0 h1, output_eq]
      simp only [f2, ht]
      rfl
    refine ⟨by rw [run_of_exit w p hc h0 h1], hd, ?_⟩
    rw [hd, lines_eq, List.length_map, entries_length]

set_option maxRecDepth 100000 in
theorem main_exit_status_witness :
    terminal.c99 = true ∧
    (run terminal Linux.platform).ending = Ending.exited 0 ∧
    (run terminal Linux.platform).calls = 20 ∧
    (run terminal Linux.platform).delivered = output Linux.platform :=
  ⟨rfl, ((main_exit_status terminal Linux.platform rfl).2.2.2 (fun _ => rfl)).1, by decide,
    ((main_exit_status terminal Linux.platform rfl).2.2.2 (fun _ => rfl)).2.1⟩

set_option maxRecDepth 100000 in
/-- C8 (as stated) fails: on a pipe whose reader has gone the first write raises
`SIGPIPE`; the process is terminated inside the first `show`, nothing reaches
standard output and no status 0 is returned.  With a fully buffered stream all
twenty statements run and the flush at exit raises the signal.  Built as C89
the status of a run that wrote everything is undefined. -/
theorem main_can_end_early :
    (run closedPipe Linux.platform).ending = Ending.killed 13 ∧
    (run closedPipe Linux.platform).calls = 1 ∧
    (run closedPipe Linux.platform).delivered = [] ∧
    (run closedPipeBuffered Linux.platform).ending = Ending.killed 13 ∧
    (run closedPipeBuffered Linux.platform).calls = 20 ∧
    (run closedPipeBuffered Linux.platform).delivered = [] ∧
    (run builtAsC89 Linux.platform).ending = Ending.exitedUndefined ∧
    ¬ (∀ w : World, (run w Linux.platform).ending = Ending.exited 0 ∧
        (splitLines (run w Linux.platform).delivered).length = 20) := by
  refine ⟨by decide, by decide, by decide, by decide, by decide, by decide, by decide, ?_⟩
  intro h
  have h1 := (h closedPipe).1
  have h2 : (run closedPipe Linux.platform).ending = Ending.killed 13 := by decide
  rw [h2] at h1
  exact absurd h1 (by simp)

/-- C6: on a platform whose `SPI_IOC_MESSAGE` follows the generic encoding, the
codes reported for counts 0, 1, 2 and 16 are pairwise distinct and strictly
increasing, share direction `write`, type `0x6B` and number 0, and carry the
sizes 0, 32, 64 and 512 (the count times 32) in bits 16-29; they agree on every
bit outside that field, and the code for 16 differs from the other three in
it. -/
theorem spi_message_codes (p : Platform)
    (hp : ∀ n, p.SPI_IOC_MESSAGE n = Linux.SPI_IOC_MESSAGE n) :
    (((splitLines (output p)).drop 6).take 4).map (fun l => (displayName l, readHex (hexField l)))
      = [ ("SPI_IOC_MESSAGE(0)".toList, some (p.SPI_IOC_MESSAGE 0)),
          ("SPI_IOC_MESSAGE(1)".toList, some (p.SPI_IOC_MESSAGE 1)),
          ("SPI_IOC_MESSAGE(2)".toList, some (p.SPI_IOC_MESSAGE 2)),
          ("SPI_IOC_MESSAGE(16)".toList, some (p.SPI_IOC_MESSAGE 16)) ] ∧
    ([0, 1, 2, 16].map p.SPI_IOC_MESSAGE).Nodup ∧
    (p.SPI_IOC_MESSAGE 0 < p.SPI_IOC_MESSAGE 1 ∧ p.SPI_IOC_MESSAGE 1 < p.SPI_IOC_MESSAGE 2 ∧
      p.SPI_IOC_MESSAGE 2 < p.SPI_IOC_MESSAGE 16) ∧
    (∀ a b, a < b → b < 512 → p.SPI_IOC_MESSAGE a < p.SPI_IOC_MESSAGE b) ∧
    (∀ n ∈ [0, 1, 2, 16],
      Linux._IOC_DIR (p.SPI_IOC_MESSAGE n) = Linux._IOC_WRITE ∧
      Linux._IOC_TYPE (p.SPI_IOC_MESSAGE n) = 0x6B ∧
      Linux._IOC_NR (p.SPI_IOC_MESSAGE n) = 0 ∧
      Linux._IOC_SIZE (p.SPI_IOC_MESSAGE n) = n * 32) ∧
    [0, 1, 2, 16].map (fun n => Linux._IOC_SIZE (p.SPI_IOC_MESSAGE n)) = [0, 32, 64, 512] ∧
    (∀ a ∈ [0, 1, 2, 16], ∀ b ∈ [0, 1, 2, 16],
      p.SPI_IOC_MESSAGE a % 2 ^ 16 = p.SPI_IOC_MESSAGE b % 2 ^ 16 ∧
      p.SPI_IOC_MESSAGE a / 2 ^ 30 = p.SPI_IOC_MESSAGE b / 2 ^ 30) ∧
    (∀ n ∈ [0, 1, 2],
      Linux._IOC_SIZE (p.SPI_IOC_MESSAGE 16) ≠ Linux._IOC_SIZE (p.SPI_IOC_MESSAGE n)) := by
  refine ⟨?_, ?_, ?_, ?_, ?_, ?_, ?_, ?_⟩
  · rw [lines_eq]
    simp only [entries, List.map_cons, List.map_nil, List.drop_succ_cons, List.drop_zero,
      List.take_succ_cons, List.take_zero, hexField_lineBody, readHex_fmt08X, hp]
    rw [displayName_lineBody _ _ (by decide), displayName_lineBody _ _ (by decide),
      displayName_lineBody _ _ (by decide), displayName_lineBody _ _ (by decide)]
    decide
  · simp only [List.map_cons, List.map_nil, hp]; decide
  · simp only [hp]; decide
  · intro a b hab hb
    rw [hp, hp, spi_message_formula a (by omega), spi_message_formula b hb]
    omega
  · simp only [hp]; decide
  · simp only [List.map_cons, List.map_nil, hp]; decide
  · simp only [hp]; decide
  · simp only [hp]; decide

theorem spi_message_codes_witness :
    (∀ n, Linux.platform.SPI_IOC_MESSAGE n = Linux.SPI_IOC_MESSAGE n) ∧
    [0, 1, 2, 16].map (fun n => Linux._IOC_SIZE (Linux.platform.SPI_IOC_MESSAGE n))
      = [0, 32, 64, 512] :=
  ⟨fun _ => rfl, (spi_message_codes Linux.platform (fun _ => rfl)).2.2.2.2.2.1⟩

/-- C10: on a platform whose five SPI read/write pairs follow the generic
encoding, the two codes of each pair agree on size, type (`k`, `0x6B`) and
number and differ only in direction: the read code has bit 31 set and bit 30
clear, the write code bit 30 set and bit 31 clear, so the read code is the write
code plus `0x40000000`; and on the two output lines of a pair the hexadecimal
fields differ only in the first digit, `8` against `4`. -/
theorem spi_rd_wr_pairs (p : Platform)
    (hg : spiPairs p =
      [ (Linux._IOR Linux.SPI_IOC_MAGIC 1 1, Linux._IOW Linux.SPI_IOC_MAGIC 1 1),
        (Linux._IOR Linux.SPI_IOC_MAGIC 2 1, Linux._IOW Linux.SPI_IOC_MAGIC 2 1),
        (Linux._IOR Linux.SPI_IOC_MAGIC 3 1, Linux._IOW Linux.SPI_IOC_MAGIC 3 1),
        (Linux._IOR Linux.SPI_IOC_MAGIC 4 4, Linux._IOW Linux.SPI_IOC_MAGIC 4 4),
        (Linux._IOR Linux.SPI_IOC_MAGIC 5 4, Linux._IOW Linux.SPI_IOC_MAGIC 5 4) ]) :
    (∀ pr ∈ spiPairs p,
      Linux._IOC_SIZE pr.1 = Linux._IOC_SIZE pr.2 ∧
      Linux._IOC_TYPE pr.1 = 'k'.toNat ∧ Linux._IOC_TYPE pr.2 = 'k'.toNat ∧
      Linux._IOC_NR pr.1 = Linux._IOC_NR pr.2 ∧
      Linux._IOC_DIR pr.1 = Linux._IOC_READ ∧ Linux._IOC_DIR pr.2 = Linux._IOC_WRITE ∧
      pr.1.testBit 31 = true ∧ pr.1.testBit 30 = false ∧
      pr.2.testBit 30 = true ∧ pr.2.testBit 31 = false ∧
      pr.1 - pr.2 = 0x40000000 ∧ pr.1 = pr.2 + 0x40000000 ∧
      pr.1 % 2 ^ 30 = pr.2 % 2 ^ 30) ∧
    'k'.toNat = 0x6B ∧
    ((splitLines (output p)).drop 10).map displayName =
      [ "SPI_IOC_RD_MODE", "SPI_IOC_WR_MODE", "SPI_IOC_RD_LSB_FIRST", "SPI_IOC_WR_LSB_FIRST",
        "SPI_IOC_RD_BITS_PER_WORD", "SPI_IOC_WR_BITS_PER_WORD", "SPI_IOC_RD_MAX_SPEED_HZ",
        "SPI_IOC_WR_MAX_SPEED_HZ", "SPI_IOC_RD_MODE32", "SPI_IOC_WR_MODE32" ].map String.toList ∧
    (∀ i, i < 5 → ∃ tail,
      ((splitLines (output p)).map hexField)[10 + 2 * i]? = some ('8' :: tail) ∧
      ((splitLines (output p)).map hexField)[11 + 2 * i]? = some ('4' :: tail)) := by
  have hp : spiPairs p = spiPairs Linux.platform := hg
  have hl := lines_eq p
  have hv := hp
  simp only [spiPairs, List.cons.injEq, Prod.mk.injEq, and_true] at hv
  obtain ⟨⟨h1, h2⟩, ⟨h3, h4⟩, ⟨h5, h6⟩, ⟨h7, h8⟩, h9, h10⟩ := hv
  refine ⟨?_, by decide, ?_, ?_⟩
  · rw [hp]; decide
  · rw [hl]
    simp only [entries, List.map_cons, List.map_nil, List.drop_succ_cons, List.drop_zero]
    repeat rw [displayName_lineBody _ _ (by decide)]
  · rw [hl, List.map_map]
    simp only [entries, List.map_cons, List.map_nil, Function.comp, hexField_lineBody,
      h1, h2, h3, h4, h5, h6, h7, h8, h9, h10]
    have e1 : fmt08X Linux.platform.SPI_IOC_RD_MODE = '8' :: "0016B01".toList := by decide
    have e2 : fmt08X Linux.platform.SPI_IOC_WR_MODE = '4' :: "0016B01".toList := by decide
    have e3 : fmt08X Linux.platform.SPI_IOC_RD_LSB_FIRST = '8' :: "0016B02".toList := by decide
    have e4 : fmt08X Linux.platform.SPI_IOC_WR_LSB_FIRST = '4' :: "0016B02".toList := by decide
    have e5 : fmt08X Linux.platform.SPI_IOC_RD_BITS_PER_WORD = '8' :: "0016B03".toList := by decide
    have e6 : fmt08X Linux.platform.SPI_IOC_WR_BITS_PER_WORD = '4' :: "0016B03".toList := by decide
    have e7 : fmt08X Linux.platform.SPI_IOC_RD_MAX_SPEED_HZ = '8' :: "0046B04".toList := by decide
    have e8 : fmt08X Linux.platform.SPI_IOC_WR_MAX_SPEED_HZ = '4' :: "0046B04".toList := by decide
    have e9 : fmt08X Linux.platform.SPI_IOC_RD_MODE32 = '8' :: "0046B05".toList := by decide
    have e10 : fmt08X Linux.platform.SPI_IOC_WR_MODE32 = '4' :: "0046B05".toList := by decide
    rw [e1, e2, e3, e4, e5, e6, e7, e8, e9, e10]
    intro i hi
    interval_cases i
    · exact ⟨"0016B01".toList, rfl, rfl⟩
    · exact ⟨"0016B02".toList, rfl, rfl⟩
    · exact ⟨"0016B03".toList, rfl, rfl⟩
    · exact ⟨"0046B04".toList, rfl, rfl⟩
    · exact ⟨"0046B05".toList, rfl, rfl⟩

theorem spi_rd_wr_pairs_witness :
    spiPairs Linux.platform =
      [ (0x80016B01, 0x40016B01), (0x80016B02, 0x40016B02), (0x80016B03, 0x40016B03),
        (0x80046B04, 0x40046B04), (0x80046B05, 0x40046B05) ] ∧
    Linux.platform.SPI_IOC_RD_MODE32 - Linux.platform.SPI_IOC_WR_MODE32 = 0x40000000 :=
  ⟨by decide, ((spi_rd_wr_pairs Linux.platform rfl).1
    (Linux.platform.SPI_IOC_RD_MODE32, Linux.platform.SPI_IOC_WR_MODE32)
    (by decide)).2.2.2.2.2.2.2.2.2.2.1⟩

end Plio
